import Mathlib

/-!
Verification of `src/laia/engine/feeders/tensor_feeder.py` (PyLaia).

The file under verification is a device-relocation adapter: `TensorFeeder`
stores a target device and a `requires_grad` flag, and `_feed` dispatches on
the runtime type of its input (plain `torch.Tensor`, `PaddedTensor`,
`PackedSequence`, anything else) and relocates the numeric payload(s).

We embed PyTorch tensors shallowly as references into an explicit heap, so
that the in-place mutation performed by `Tensor.requires_grad_` and the
aliasing behaviour of `Tensor.to` (which returns the *same* object when the
tensor already lives on the requested device, and a fresh copy otherwise)
are both observable.
-/

namespace Laia

/-- A compute device identifier, e.g. `"cpu"` or `"cuda:0"`. -/
abbrev Device := String

/-- The mutable state of one `torch.Tensor` object: the device it lives on,
its gradient-tracking flag and its (opaque) numeric payload. -/
structure TensorObj where
  device : Device
  requires_grad : Bool
  payload : List Int
deriving DecidableEq, Repr

/-- A heap of tensor objects; a tensor reference is an index into this list.
Fresh objects are allocated by appending. -/
abbrev Heap := List TensorObj

/-- Semantics of `Tensor.to(device)`: if the tensor already lives on `d` the same object
(reference) is returned and the heap is untouched; otherwise a fresh copy on
`d` is allocated, preserving the gradient flag and payload. -/
def torchTo (h : Heap) (r : Nat) (d : Device) : Heap × Nat :=
  match h.get? r with
  | some t => if t.device = d then (h, r) else (h ++ [{ t with device := d }], h.length)
  | none => (h, r)

/-- Semantics of `Tensor.requires_grad_(b)`: sets the gradient-tracking flag of the object
in place and returns the same reference. -/
def requiresGradInPlace (h : Heap) (r : Nat) (b : Bool) : Heap × Nat :=
  match h.get? r with
  | some t => (h.set r { t with requires_grad := b }, r)
  | none => (h, r)

/-- The runtime variants `_feed` dispatches on: a plain tensor, a
`PaddedTensor` (data plus per-item sizes), a `PackedSequence` (data plus
batch sizes), or a value of any other runtime type (carrying its type name,
as used by the error message). -/
inductive Value where
  | tensor (r : Nat)
  | paddedTensor (dataRef sizesRef : Nat)
  | packedSequence (dataRef batchSizesRef : Nat)
  | other (typeName : String)
deriving DecidableEq, Repr

/-- The exceptions `_feed` can raise: the `TypeError` produced by calling a
`bool` attribute, and the explicit `ValueError` of the final branch. -/
inductive Err where
  | typeError (msg : String)
  | valueError (msg : String)
deriving DecidableEq, Repr

/-- The two configuration fields set in `TensorFeeder.__init__` and immutable
afterwards. -/
structure TensorFeeder where
  device : Device
  requires_grad : Bool := false
deriving DecidableEq, Repr

/-- Translation of `TensorFeeder._feed`, branch by branch from the source.

* `torch.Tensor` branch: the source reads
  `return x.requires_grad(self._requires_grad).to(self._device)`.
  `Tensor.requires_grad` is a boolean attribute (the in-place setter is
  `requires_grad_`, which the two branches below use), so calling it raises
  `TypeError: bool object is not callable` before any transfer happens.
* `PaddedTensor` branch: `xs = x.sizes.to(self._device)`, then
  `x = x.data.requires_grad_(self._requires_grad).to(self._device)`,
  then `return PaddedTensor(x, xs)`.
* `PackedSequence` branch: the same with `batch_sizes` in place of `sizes`.
* any other type: `raise ValueError("Type {!r} is not supported"...)`. -/
def TensorFeeder._feed (f : TensorFeeder) (h : Heap) (x : Value) :
    Heap × Except Err Value :=
  match x with
  | .tensor _ => (h, .error (.typeError "bool object is not callable"))
  | .paddedTensor dr sr =>
      let p1 := torchTo h sr f.device
      let p2 := requiresGradInPlace p1.1 dr f.requires_grad
      let p3 := torchTo p2.1 p2.2 f.device
      (p3.1, .ok (.paddedTensor p3.2 p1.2))
  | .packedSequence dr sr =>
      let p1 := torchTo h sr f.device
      let p2 := requiresGradInPlace p1.1 dr f.requires_grad
      let p3 := torchTo p2.1 p2.2 f.device
      (p3.1, .ok (.packedSequence p3.2 p1.2))
  | .other tn => (h, .error (.valueError ("Type " ++ tn ++ " is not supported")))

/-- Backward-compatible alias, from `VariableFeeder = TensorFeeder` at the
bottom of the source file: a second name bound to the same class. -/
def VariableFeeder := TensorFeeder

/-- Modelled from the spec: the `Feeder` base class
(`laia/engine/feeders/feeder.py`) is not under `src/`; only its subclass is.
Per the spec, "If upstream transformation is configured, it is invoked first
and its output becomes this call's effective input", and the upstream
callable follows the same transform contract over values (here: a heap
transformer). `transform` is the public entry point obtained by composing
the optional parent feeder with `_feed`. -/
def TensorFeeder.transform (f : TensorFeeder)
    (parent : Option (Heap → Value → Heap × Value)) (h : Heap) (x : Value) :
    Heap × Except Err Value :=
  match parent with
  | some u =>
      let p := u h x
      f._feed p.1 p.2
  | none => f._feed h x

/-- Recognized runtime variants: everything except the fallthrough branch. -/
def Value.recognized : Value → Bool
  | .other _ => false
  | _ => true

/-- Reference to the data sub-array that `_feed` mutates in place via
`requires_grad_` (the composite branches only; the plain-tensor branch raises
before reaching any tensor operation). -/
def Value.mutatedDataRef : Value → Option Nat
  | .paddedTensor dr _ => some dr
  | .packedSequence dr _ => some dr
  | _ => none

/-- Whether a value already satisfies the feeder's configuration: all its
sub-arrays live on the configured device and the numeric payload's
gradient-tracking flag equals the configured flag. -/
def TensorFeeder.satisfiedBy (f : TensorFeeder) (h : Heap) : Value → Bool
  | .tensor r =>
      match h.get? r with
      | some t => t.device = f.device && t.requires_grad = f.requires_grad
      | none => false
  | .paddedTensor dr sr | .packedSequence dr sr =>
      match h.get? dr, h.get? sr with
      | some dt, some st =>
          dt.device = f.device && dt.requires_grad = f.requires_grad &&
            st.device = f.device
      | _, _ => false
  | .other _ => false

/-- Sequential composition of two `_feed` calls (the second applied to the
first's output when it succeeds, errors propagated), used to state
idempotence. -/
def TensorFeeder.feedTwice (f : TensorFeeder) (h : Heap) (x : Value) :
    Heap × Except Err Value :=
  let p := f._feed h x
  match p.2 with
  | .ok y => f._feed p.1 y
  | .error e => (p.1, .error e)

/-- Observable tensor operations, for stating in which order `_feed` applies
them. -/
inductive Ev where
  | toDevice (r : Nat) (d : Device)
  | setGrad (r : Nat) (b : Bool)
deriving DecidableEq, Repr

/-- Trace-instrumented `_feed`: identical to `TensorFeeder._feed` except that
it also records, in order, each tensor operation the source performs. -/
def TensorFeeder.feedTr (f : TensorFeeder) (h : Heap) (x : Value) :
    Heap × Except Err Value × List Ev :=
  match x with
  | .tensor _ => (h, .error (.typeError "bool object is not callable"), [])
  | .paddedTensor dr sr =>
      let p1 := torchTo h sr f.device
      let p2 := requiresGradInPlace p1.1 dr f.requires_grad
      let p3 := torchTo p2.1 p2.2 f.device
      (p3.1, .ok (.paddedTensor p3.2 p1.2),
        [.toDevice sr f.device, .setGrad dr f.requires_grad, .toDevice p2.2 f.device])
  | .packedSequence dr sr =>
      let p1 := torchTo h sr f.device
      let p2 := requiresGradInPlace p1.1 dr f.requires_grad
      let p3 := torchTo p2.1 p2.2 f.device
      (p3.1, .ok (.packedSequence p3.2 p1.2),
        [.toDevice sr f.device, .setGrad dr f.requires_grad, .toDevice p2.2 f.device])
  | .other tn => (h, .error (.valueError ("Type " ++ tn ++ " is not supported")), [])

/-- Big-step evaluation relation for `_feed`, mirroring the dispatch of the
source: one constructor per branch, the intermediate tensor operations
recorded as equations. Used to state that `_feed` is deterministic. -/
inductive FeedStep (f : TensorFeeder) : Heap → Value → Heap → Except Err Value → Prop where
  | tensor (h : Heap) (r : Nat) :
      FeedStep f h (.tensor r) h (.error (.typeError "bool object is not callable"))
  | padded (h : Heap) (dr sr : Nat) (h1 h2 h3 : Heap) (xs d1 d2 : Nat)
      (e1 : torchTo h sr f.device = (h1, xs))
      (e2 : requiresGradInPlace h1 dr f.requires_grad = (h2, d1))
      (e3 : torchTo h2 d1 f.device = (h3, d2)) :
      FeedStep f h (.paddedTensor dr sr) h3 (.ok (.paddedTensor d2 xs))
  | packed (h : Heap) (dr sr : Nat) (h1 h2 h3 : Heap) (xs d1 d2 : Nat)
      (e1 : torchTo h sr f.device = (h1, xs))
      (e2 : requiresGradInPlace h1 dr f.requires_grad = (h2, d1))
      (e3 : torchTo h2 d1 f.device = (h3, d2)) :
      FeedStep f h (.packedSequence dr sr) h3 (.ok (.packedSequence d2 xs))
  | other (h : Heap) (tn : String) :
      FeedStep f h (.other tn) h
        (.error (.valueError ("Type " ++ tn ++ " is not supported")))

section Examples

example :
    TensorFeeder._feed ⟨"cuda:0", true⟩
      [⟨"cpu", false, [7, 7]⟩, ⟨"cpu", false, [2]⟩] (.paddedTensor 0 1) =
    ([⟨"cpu", true, [7, 7]⟩, ⟨"cpu", false, [2]⟩,
      ⟨"cuda:0", false, [2]⟩, ⟨"cuda:0", true, [7, 7]⟩],
     .ok (.paddedTensor 3 2)) := rfl

example :
    TensorFeeder._feed ⟨"cpu", true⟩
      [⟨"cpu", false, [7]⟩, ⟨"cpu", false, [1]⟩] (.paddedTensor 0 1) =
    ([⟨"cpu", true, [7]⟩, ⟨"cpu", false, [1]⟩], .ok (.paddedTensor 0 1)) := rfl

end Examples

section ListHelpers

variable {α : Type _}

theorem get?_append_left : ∀ (l l' : List α) (i : Nat), i < l.length →
    (l ++ l').get? i = l.get? i
  | [], _, i, hi => absurd hi (by simp)
  | _ :: _, _, 0, _ => rfl
  | _ :: l, l', i + 1, hi =>
      get?_append_left l l' i (Nat.lt_of_succ_lt_succ hi)

theorem get?_append_length (l : List α) (a : α) :
    (l ++ [a]).get? l.length = some a := by
  induction l with
  | nil => rfl
  | cons b l ih => exact ih

theorem get?_set_same : ∀ (l : List α) (i : Nat) (a b : α),
    l.get? i = some b → (l.set i a).get? i = some a
  | [], i, _, _, hb => by simp [List.get?] at hb
  | _ :: _, 0, _, _, _ => rfl
  | _ :: l, i + 1, a, b, hb => get?_set_same l i a b hb

theorem get?_set_other : ∀ (l : List α) (i j : Nat) (a : α), i ≠ j →
    (l.set i a).get? j = l.get? j
  | [], _, _, _, _ => by simp
  | _ :: _, 0, 0, _, hij => absurd rfl hij
  | _ :: _, 0, _ + 1, _, _ => rfl
  | _ :: _, _ + 1, 0, _, _ => rfl
  | _ :: l, i + 1, j + 1, a, hij =>
      get?_set_other l i j a (fun hc => hij (congrArg Nat.succ hc))

theorem set_self : ∀ (l : List α) (i : Nat) (a : α),
    l.get? i = some a → l.set i a = l
  | [], i, _, hb => by simp [List.get?] at hb
  | _ :: _, 0, _, hb => by
      simp only [List.get?] at hb
      cases hb
      rfl
  | b :: l, i + 1, a, hb => by
      simp only [List.set]
      rw [set_self l i a hb]

theorem get?_lt_length : ∀ (l : List α) (i : Nat) (a : α),
    l.get? i = some a → i < l.length
  | [], i, _, hb => by simp [List.get?] at hb
  | _ :: _, 0, _, _ => Nat.succ_pos _
  | _ :: l, i + 1, a, hb =>
      Nat.succ_lt_succ (get?_lt_length l i a hb)

end ListHelpers

section OpLemmas

/-- Relocation never changes an existing heap cell. -/
theorem torchTo_preserves (h : Heap) (r : Nat) (d : Device) (i : Nat)
    (hi : i < h.length) : (torchTo h r d).1.get? i = h.get? i := by
  unfold torchTo
  cases hg : h.get? r with
  | none => rfl
  | some t =>
      by_cases hd : t.device = d
      · simp [hd]
      · simp only [hd, if_false]
        exact get?_append_left h _ i hi

/-- Relocation can only grow the heap. -/
theorem torchTo_length_le (h : Heap) (r : Nat) (d : Device) :
    h.length ≤ (torchTo h r d).1.length := by
  unfold torchTo
  cases hg : h.get? r with
  | none => exact Nat.le_refl _
  | some t =>
      by_cases hd : t.device = d
      · simp [hd]
      · simp [hd]

/-- The reference returned by relocation points to a tensor on the target
device, with the gradient flag and payload of the original. -/
theorem torchTo_result (h : Heap) (r : Nat) (d : Device) (t : TensorObj)
    (hg : h.get? r = some t) :
    (torchTo h r d).1.get? (torchTo h r d).2 =
      some ⟨d, t.requires_grad, t.payload⟩ := by
  unfold torchTo
  rw [hg]
  by_cases hd : t.device = d
  · simp only [hd, if_true]
    rw [hg]
    cases t
    simp_all
  · simp only [hd, if_false]
    exact get?_append_length h _

/-- The reference returned by relocation is either the input reference or a
fresh one at the old end of the heap. -/
theorem torchTo_ref_cases (h : Heap) (r : Nat) (d : Device) :
    (torchTo h r d).2 = r ∨ (torchTo h r d).2 = h.length := by
  unfold torchTo
  cases hg : h.get? r with
  | none => exact Or.inl rfl
  | some t =>
      by_cases hd : t.device = d
      · simp [hd]
      · simp [hd]

/-- The reference returned by relocation is valid when the input one is. -/
theorem torchTo_ref_lt (h : Heap) (r : Nat) (d : Device) (t : TensorObj)
    (hg : h.get? r = some t) :
    (torchTo h r d).2 < (torchTo h r d).1.length := by
  unfold torchTo
  rw [hg]
  by_cases hd : t.device = d
  · simpa [hd] using get?_lt_length h r t hg
  · simp [hd]

/-- When the tensor already lives on the target device, relocation is the
identity. -/
theorem torchTo_noop (h : Heap) (r : Nat) (d : Device) (t : TensorObj)
    (hg : h.get? r = some t) (hd : t.device = d) : torchTo h r d = (h, r) := by
  unfold torchTo
  rw [hg]
  simp [hd]

/-- The in-place gradient setter returns its input reference unchanged. -/
theorem requiresGradInPlace_ref (h : Heap) (r : Nat) (b : Bool) :
    (requiresGradInPlace h r b).2 = r := by
  unfold requiresGradInPlace
  cases h.get? r <;> rfl

/-- The in-place gradient setter overwrites the flag of the referenced cell. -/
theorem requiresGradInPlace_result (h : Heap) (r : Nat) (b : Bool)
    (t : TensorObj) (hg : h.get? r = some t) :
    (requiresGradInPlace h r b).1.get? r = some { t with requires_grad := b } := by
  unfold requiresGradInPlace
  rw [hg]
  exact get?_set_same h r _ t hg

/-- The in-place gradient setter leaves every other cell alone. -/
theorem requiresGradInPlace_preserves (h : Heap) (r : Nat) (b : Bool)
    (i : Nat) (hi : i ≠ r) :
    (requiresGradInPlace h r b).1.get? i = h.get? i := by
  unfold requiresGradInPlace
  cases hg : h.get? r with
  | none => rfl
  | some t => exact get?_set_other h r i _ (fun hc => hi hc.symm)

/-- The in-place gradient setter does not change the heap's length. -/
theorem requiresGradInPlace_length (h : Heap) (r : Nat) (b : Bool) :
    (requiresGradInPlace h r b).1.length = h.length := by
  unfold requiresGradInPlace
  cases hg : h.get? r with
  | none => rfl
  | some t => exact List.length_set h r _

/-- Setting the flag to the value it already has is the identity. -/
theorem requiresGradInPlace_noop (h : Heap) (r : Nat) (b : Bool)
    (t : TensorObj) (hg : h.get? r = some t) (hb : t.requires_grad = b) :
    requiresGradInPlace h r b = (h, r) := by
  unfold requiresGradInPlace
  rw [hg]
  have ht : { t with requires_grad := b } = t := by
    cases t
    simp_all
  show (h.set r { t with requires_grad := b }, r) = (h, r)
  rw [ht, set_self h r t hg]

end OpLemmas

/-- Adequacy of the big-step relation: `_feed` realizes `FeedStep`. -/
theorem feedStep_of_feed (f : TensorFeeder) (h : Heap) (x : Value) :
    FeedStep f h x (f._feed h x).1 (f._feed h x).2 := by
  cases x with
  | tensor r => exact FeedStep.tensor h r
  | paddedTensor dr sr => exact FeedStep.padded h dr sr _ _ _ _ _ _ rfl rfl rfl
  | packedSequence dr sr => exact FeedStep.packed h dr sr _ _ _ _ _ _ rfl rfl rfl
  | other tn => exact FeedStep.other h tn

/-- C1 (code bug): the claim says a plain-Tensor input comes back with the
configured gradient flag and device, but the source's Tensor branch reads
`x.requires_grad(self._requires_grad).to(self._device)` and
`Tensor.requires_grad` is a boolean attribute, not the in-place setter
`requires_grad_` used by the other two branches; calling a `bool` raises
`TypeError`, so every plain-Tensor input errors out and the heap is left
untouched. -/
theorem tensor_branch_raises_type_error (f : TensorFeeder) (h : Heap) (r : Nat) :
    f._feed h (.tensor r) =
      (h, .error (.typeError "bool object is not callable")) := rfl

/-- C4: on an input of any unrecognized runtime type, `_feed` raises a
`ValueError` whose message names the offending type, returns no value, and
leaves the heap (hence the input and all shared state) completely
unchanged — the type dispatch falls through before any tensor operation. -/
theorem unrecognized_input_raises (f : TensorFeeder) (h : Heap) (tn : String) :
    f._feed h (.other tn) =
      (h, .error (.valueError ("Type " ++ tn ++ " is not supported"))) ∧
    Value.recognized (.other tn) = false :=
  ⟨rfl, rfl⟩

/-- C6 (spec-modelled chaining): with an upstream feeder configured,
`transform` on `x` coincides with the upstream-free `transform` applied to
the upstream's output: the upstream runs first and its result is the
effective input. -/
theorem transform_chains_upstream_first (f : TensorFeeder)
    (u : Heap → Value → Heap × Value) (h : Heap) (x : Value) :
    f.transform (some u) h x = f.transform none (u h x).1 (u h x).2 := rfl

/-- C9: `VariableFeeder` is the very same class as `TensorFeeder` (a second
name bound to the same object), so construction and feeding through the old
name behave identically. -/
theorem variable_feeder_aliases_tensor_feeder :
    VariableFeeder = TensorFeeder ∧
    ∀ (d : Device) (rg : Bool) (h : Heap) (x : Value),
      TensorFeeder._feed (show VariableFeeder from ⟨d, rg⟩) h x =
        TensorFeeder._feed ⟨d, rg⟩ h x :=
  ⟨rfl, fun _ _ _ _ => rfl⟩

/-- C8: on both composite variants the steps happen in the stated order —
first the size/batch-size descriptor is relocated, then the data sub-array
has its gradient flag set and is relocated — and the result is a new wrapper
of the same variant around the two relocated references; erasing the trace
recovers `_feed` exactly. -/
theorem composite_branch_order (f : TensorFeeder) (h : Heap) (dr sr : Nat) :
    ((f.feedTr h (.paddedTensor dr sr)).2.2 =
        [.toDevice sr f.device, .setGrad dr f.requires_grad,
          .toDevice dr f.device] ∧
      (f.feedTr h (.paddedTensor dr sr)).2.1 =
        .ok (.paddedTensor
          (torchTo (requiresGradInPlace (torchTo h sr f.device).1 dr
              f.requires_grad).1 dr f.device).2
          (torchTo h sr f.device).2)) ∧
    ((f.feedTr h (.packedSequence dr sr)).2.2 =
        [.toDevice sr f.device, .setGrad dr f.requires_grad,
          .toDevice dr f.device] ∧
      (f.feedTr h (.packedSequence dr sr)).2.1 =
        .ok (.packedSequence
          (torchTo (requiresGradInPlace (torchTo h sr f.device).1 dr
              f.requires_grad).1 dr f.device).2
          (torchTo h sr f.device).2)) ∧
    ∀ (y : Value), ((f.feedTr h y).1, (f.feedTr h y).2.1) = f._feed h y := by
  refine ⟨⟨?_, ?_⟩, ⟨?_, ?_⟩, ?_⟩
  · simp [TensorFeeder.feedTr, requiresGradInPlace_ref]
  · simp [TensorFeeder.feedTr, requiresGradInPlace_ref]
  · simp [TensorFeeder.feedTr, requiresGradInPlace_ref]
  · simp [TensorFeeder.feedTr, requiresGradInPlace_ref]
  · intro y
    cases y <;> rfl

/-- C2: for a `PaddedTensor` input whose data and size sub-arrays are two
distinct live tensors, `_feed` returns a `PaddedTensor` whose data cell is on
the configured device with the configured gradient flag and the original
payload, and whose size cell is on the configured device with the *input*
size tensor's gradient flag (so it does not depend on the configured flag)
and the original payload. -/
theorem padded_output_on_device (f : TensorFeeder) (h : Heap) (dr sr : Nat)
    (dt st : TensorObj) (hd : h.get? dr = some dt) (hs : h.get? sr = some st)
    (hne : dr ≠ sr) :
    ∃ (h3 : Heap) (d2 xs : Nat),
      f._feed h (.paddedTensor dr sr) = (h3, .ok (.paddedTensor d2 xs)) ∧
      h3.get? d2 = some ⟨f.device, f.requires_grad, dt.payload⟩ ∧
      h3.get? xs = some ⟨f.device, st.requires_grad, st.payload⟩ := by
  have hdr_lt : dr < h.length := get?_lt_length h dr dt hd
  have href : (requiresGradInPlace (torchTo h sr f.device).1 dr
      f.requires_grad).2 = dr := requiresGradInPlace_ref _ _ _
  have h1d : (torchTo h sr f.device).1.get? dr = some dt := by
    rw [torchTo_preserves h sr f.device dr hdr_lt]
    exact hd
  have h2d : (requiresGradInPlace (torchTo h sr f.device).1 dr
        f.requires_grad).1.get? dr =
      some { dt with requires_grad := f.requires_grad } :=
    requiresGradInPlace_result _ dr _ dt h1d
  have hxs : (torchTo h sr f.device).1.get? (torchTo h sr f.device).2 =
      some ⟨f.device, st.requires_grad, st.payload⟩ :=
    torchTo_result h sr f.device st hs
  have hxs_lt : (torchTo h sr f.device).2 < (torchTo h sr f.device).1.length :=
    torchTo_ref_lt h sr f.device st hs
  have hxs_ne : (torchTo h sr f.device).2 ≠ dr := by
    rcases torchTo_ref_cases h sr f.device with hc | hc
    · rw [hc]
      exact fun hcc => hne hcc.symm
    · rw [hc]
      intro hcc
      omega
  refine ⟨_, _, _, rfl, ?_, ?_⟩
  · rw [href]
    exact torchTo_result _ dr f.device _ h2d
  · rw [href]
    have hlen2 : (torchTo h sr f.device).2 <
        (requiresGradInPlace (torchTo h sr f.device).1 dr
          f.requires_grad).1.length := by
      rw [requiresGradInPlace_length]
      exact hxs_lt
    rw [torchTo_preserves _ dr f.device _ hlen2,
      requiresGradInPlace_preserves _ dr _ _ hxs_ne]
    exact hxs

/-- Closed instance of `padded_output_on_device` at a concrete feeder, heap
and input. -/
theorem padded_output_on_device_witness :
    (List.get? [⟨"cpu", false, [7]⟩, ⟨"cpu", true, [1]⟩] 0 =
        some (⟨"cpu", false, [7]⟩ : TensorObj)) ∧
    (List.get? [⟨"cpu", false, [7]⟩, ⟨"cpu", true, [1]⟩] 1 =
        some (⟨"cpu", true, [1]⟩ : TensorObj)) ∧
    (0 : Nat) ≠ 1 ∧
    ∃ (h3 : Heap) (d2 xs : Nat),
      TensorFeeder._feed ⟨"cuda:0", true⟩
          [⟨"cpu", false, [7]⟩, ⟨"cpu", true, [1]⟩] (.paddedTensor 0 1) =
        (h3, .ok (.paddedTensor d2 xs)) ∧
      h3.get? d2 = some ⟨"cuda:0", true, [7]⟩ ∧
      h3.get? xs = some ⟨"cuda:0", true, [1]⟩ :=
  ⟨rfl, rfl, by decide,
    padded_output_on_device ⟨"cuda:0", true⟩
      [⟨"cpu", false, [7]⟩, ⟨"cpu", true, [1]⟩] 0 1
      ⟨"cpu", false, [7]⟩ ⟨"cpu", true, [1]⟩ rfl rfl (by decide)⟩

/-- C3: for a `PackedSequence` input whose data and batch-size sub-arrays are
two distinct live tensors, `_feed` returns a `PackedSequence` whose data cell
is on the configured device with the configured gradient flag and the
original payload, and whose batch-size cell is on the configured device with
the *input* batch-size tensor's gradient flag (independent of the configured
flag) and the original payload. -/
theorem packed_output_on_device (f : TensorFeeder) (h : Heap) (dr sr : Nat)
    (dt st : TensorObj) (hd : h.get? dr = some dt) (hs : h.get? sr = some st)
    (hne : dr ≠ sr) :
    ∃ (h3 : Heap) (d2 xs : Nat),
      f._feed h (.packedSequence dr sr) = (h3, .ok (.packedSequence d2 xs)) ∧
      h3.get? d2 = some ⟨f.device, f.requires_grad, dt.payload⟩ ∧
      h3.get? xs = some ⟨f.device, st.requires_grad, st.payload⟩ := by
  have hdr_lt : dr < h.length := get?_lt_length h dr dt hd
  have href : (requiresGradInPlace (torchTo h sr f.device).1 dr
      f.requires_grad).2 = dr := requiresGradInPlace_ref _ _ _
  have h1d : (torchTo h sr f.device).1.get? dr = some dt := by
    rw [torchTo_preserves h sr f.device dr hdr_lt]
    exact hd
  have h2d : (requiresGradInPlace (torchTo h sr f.device).1 dr
        f.requires_grad).1.get? dr =
      some { dt with requires_grad := f.requires_grad } :=
    requiresGradInPlace_result _ dr _ dt h1d
  have hxs : (torchTo h sr f.device).1.get? (torchTo h sr f.device).2 =
      some ⟨f.device, st.requires_grad, st.payload⟩ :=
    torchTo_result h sr f.device st hs
  have hxs_lt : (torchTo h sr f.device).2 < (torchTo h sr f.device).1.length :=
    torchTo_ref_lt h sr f.device st hs
  have hxs_ne : (torchTo h sr f.device).2 ≠ dr := by
    rcases torchTo_ref_cases h sr f.device with hc | hc
    · rw [hc]
      exact fun hcc => hne hcc.symm
    · rw [hc]
      intro hcc
      omega
  refine ⟨_, _, _, rfl, ?_, ?_⟩
  · rw [href]
    exact torchTo_result _ dr f.device _ h2d
  · rw [href]
    have hlen2 : (torchTo h sr f.device).2 <
        (requiresGradInPlace (torchTo h sr f.device).1 dr
          f.requires_grad).1.length := by
      rw [requiresGradInPlace_length]
      exact hxs_lt
    rw [torchTo_preserves _ dr f.device _ hlen2,
      requiresGradInPlace_preserves _ dr _ _ hxs_ne]
    exact hxs

/-- Closed instance of `packed_output_on_device` at a concrete feeder, heap
and input. -/
theorem packed_output_on_device_witness :
    (List.get? [⟨"cpu", true, [3, 4]⟩, ⟨"cpu", false, [2]⟩] 0 =
        some (⟨"cpu", true, [3, 4]⟩ : TensorObj)) ∧
    (List.get? [⟨"cpu", true, [3, 4]⟩, ⟨"cpu", false, [2]⟩] 1 =
        some (⟨"cpu", false, [2]⟩ : TensorObj)) ∧
    (0 : Nat) ≠ 1 ∧
    ∃ (h3 : Heap) (d2 xs : Nat),
      TensorFeeder._feed ⟨"cuda:0", false⟩
          [⟨"cpu", true, [3, 4]⟩, ⟨"cpu", false, [2]⟩] (.packedSequence 0 1) =
        (h3, .ok (.packedSequence d2 xs)) ∧
      h3.get? d2 = some ⟨"cuda:0", false, [3, 4]⟩ ∧
      h3.get? xs = some ⟨"cuda:0", false, [2]⟩ :=
  ⟨rfl, rfl, by decide,
    packed_output_on_device ⟨"cuda:0", false⟩
      [⟨"cpu", true, [3, 4]⟩, ⟨"cpu", false, [2]⟩] 0 1
      ⟨"cpu", true, [3, 4]⟩ ⟨"cpu", false, [2]⟩ rfl rfl (by decide)⟩

/-- C5 (counterexample): the claim says a recognized input is left unchanged
by the call, but the composite branches call `requires_grad_` on the data
sub-array, mutating it in place. Concretely: a `PaddedTensor` over a heap
whose data cell has the flag off, fed with the flag configured on, comes out
of the call with the *input's* data cell flipped. -/
theorem feed_mutates_input_data_flag :
    Value.recognized (.paddedTensor 0 1) = true ∧
    (TensorFeeder._feed ⟨"cpu", true⟩
        [⟨"cpu", false, [7]⟩, ⟨"cpu", false, [1]⟩] (.paddedTensor 0 1)).1.get? 0 ≠
      List.get? [⟨"cpu", false, [7]⟩, ⟨"cpu", false, [1]⟩] 0 := by
  refine ⟨rfl, ?_⟩
  decide

/-- C5 as amended: on every recognized input, the only pre-existing heap cell
a `_feed` call can change is the data sub-array of a composite input, whose
gradient-tracking flag is set in place to the configured flag (device and
payload untouched); every other pre-existing cell — in particular the whole
input of the plain-Tensor branch and the size/batch-size sub-arrays — is left
exactly as it was. -/
theorem feed_frame (f : TensorFeeder) (h : Heap) (x : Value)
    (hrec : x.recognized = true) :
    (∀ i, i < h.length → x.mutatedDataRef ≠ some i →
      ((f._feed h x).1).get? i = h.get? i) ∧
    (∀ i t, x.mutatedDataRef = some i → h.get? i = some t →
      ((f._feed h x).1).get? i =
        some { t with requires_grad := f.requires_grad }) := by
  cases x with
  | tensor r =>
      refine ⟨fun i _ _ => rfl, fun i t hmd _ => ?_⟩
      exact absurd hmd (by simp [Value.mutatedDataRef])
  | other tn => simp [Value.recognized] at hrec
  | paddedTensor dr sr =>
      have href : (requiresGradInPlace (torchTo h sr f.device).1 dr
          f.requires_grad).2 = dr := requiresGradInPlace_ref _ _ _
      constructor
      · intro i hi hne'
        have hdi : i ≠ dr := by
          intro hc
          exact hne' (by rw [hc]; rfl)
        have hi1 : i < (torchTo h sr f.device).1.length :=
          Nat.lt_of_lt_of_le hi (torchTo_length_le h sr f.device)
        have hi2 : i < (requiresGradInPlace (torchTo h sr f.device).1 dr
            f.requires_grad).1.length := by
          rw [requiresGradInPlace_length]
          exact hi1
        show (torchTo _ _ f.device).1.get? i = h.get? i
        rw [href, torchTo_preserves _ dr f.device i hi2,
          requiresGradInPlace_preserves _ dr _ i hdi,
          torchTo_preserves h sr f.device i hi]
      · intro i t hmd ht
        have hdi : dr = i := by
          simpa [Value.mutatedDataRef] using hmd
        subst hdi
        have hdr_lt : dr < h.length := get?_lt_length h dr t ht
        have h1d : (torchTo h sr f.device).1.get? dr = some t := by
          rw [torchTo_preserves h sr f.device dr hdr_lt]
          exact ht
        have h2d : (requiresGradInPlace (torchTo h sr f.device).1 dr
              f.requires_grad).1.get? dr =
            some { t with requires_grad := f.requires_grad } :=
          requiresGradInPlace_result _ dr _ t h1d
        have hlt2 : dr < (requiresGradInPlace (torchTo h sr f.device).1 dr
            f.requires_grad).1.length := by
          rw [requiresGradInPlace_length]
          exact Nat.lt_of_lt_of_le hdr_lt (torchTo_length_le h sr f.device)
        show (torchTo _ _ f.device).1.get? dr = _
        rw [href, torchTo_preserves _ dr f.device dr hlt2]
        exact h2d
  | packedSequence dr sr =>
      have href : (requiresGradInPlace (torchTo h sr f.device).1 dr
          f.requires_grad).2 = dr := requiresGradInPlace_ref _ _ _
      constructor
      · intro i hi hne'
        have hdi : i ≠ dr := by
          intro hc
          exact hne' (by rw [hc]; rfl)
        have hi1 : i < (torchTo h sr f.device).1.length :=
          Nat.lt_of_lt_of_le hi (torchTo_length_le h sr f.device)
        have hi2 : i < (requiresGradInPlace (torchTo h sr f.device).1 dr
            f.requires_grad).1.length := by
          rw [requiresGradInPlace_length]
          exact hi1
        show (torchTo _ _ f.device).1.get? i = h.get? i
        rw [href, torchTo_preserves _ dr f.device i hi2,
          requiresGradInPlace_preserves _ dr _ i hdi,
          torchTo_preserves h sr f.device i hi]
      · intro i t hmd ht
        have hdi : dr = i := by
          simpa [Value.mutatedDataRef] using hmd
        subst hdi
        have hdr_lt : dr < h.length := get?_lt_length h dr t ht
        have h1d : (torchTo h sr f.device).1.get? dr = some t := by
          rw [torchTo_preserves h sr f.device dr hdr_lt]
          exact ht
        have h2d : (requiresGradInPlace (torchTo h sr f.device).1 dr
              f.requires_grad).1.get? dr =
            some { t with requires_grad := f.requires_grad } :=
          requiresGradInPlace_result _ dr _ t h1d
        have hlt2 : dr < (requiresGradInPlace (torchTo h sr f.device).1 dr
            f.requires_grad).1.length := by
          rw [requiresGradInPlace_length]
          exact Nat.lt_of_lt_of_le hdr_lt (torchTo_length_le h sr f.device)
        show (torchTo _ _ f.device).1.get? dr = _
        rw [href, torchTo_preserves _ dr f.device dr hlt2]
        exact h2d

/-- Closed instance of `feed_frame`: the size cell (index 1) is untouched and
the data cell (index 0) only has its flag set, at a concrete feeder, heap and
input. -/
theorem feed_frame_witness :
    Value.recognized (.paddedTensor 0 1) = true ∧
    (TensorFeeder._feed ⟨"cpu", true⟩
        [⟨"cpu", false, [7]⟩, ⟨"cpu", false, [1]⟩] (.paddedTensor 0 1)).1.get? 1 =
      List.get? [⟨"cpu", false, [7]⟩, ⟨"cpu", false, [1]⟩] 1 ∧
    (TensorFeeder._feed ⟨"cpu", true⟩
        [⟨"cpu", false, [7]⟩, ⟨"cpu", false, [1]⟩] (.paddedTensor 0 1)).1.get? 0 =
      some ⟨"cpu", true, [7]⟩ :=
  ⟨rfl,
    (feed_frame ⟨"cpu", true⟩ [⟨"cpu", false, [7]⟩, ⟨"cpu", false, [1]⟩]
        (.paddedTensor 0 1) rfl).1 1 (by decide) (by decide),
    (feed_frame ⟨"cpu", true⟩ [⟨"cpu", false, [7]⟩, ⟨"cpu", false, [1]⟩]
        (.paddedTensor 0 1) rfl).2 0 ⟨"cpu", false, [7]⟩ rfl rfl⟩

/-- C7: when a recognized input already satisfies the configuration (all its
sub-arrays on the configured device, the payload's gradient flag equal to the
configured flag), feeding twice equals feeding once — and any successful call
returns the heap and the value unchanged, so the operation is idempotent in
effect. On the plain-Tensor branch both sides are the same raised error. -/
theorem feed_idempotent (f : TensorFeeder) (h : Heap) (x : Value)
    (hst : f.satisfiedBy h x = true) :
    f.feedTwice h x = f._feed h x ∧
    ∀ (h2 : Heap) (y : Value), f._feed h x = (h2, .ok y) → h2 = h ∧ y = x := by
  cases x with
  | tensor r =>
      refine ⟨rfl, fun h2 y hq => ?_⟩
      simp [TensorFeeder._feed] at hq
  | other tn => simp [TensorFeeder.satisfiedBy] at hst
  | paddedTensor dr sr =>
      cases hgd : h.get? dr with
      | none =>
          have hgd2 : h[dr]? = (none : Option TensorObj) := by
            rw [← List.get?_eq_getElem?]
            exact hgd
          simp [TensorFeeder.satisfiedBy, hgd2] at hst
      | some dt =>
          cases hgs : h.get? sr with
          | none =>
              have hgs2 : h[sr]? = (none : Option TensorObj) := by
                rw [← List.get?_eq_getElem?]
                exact hgs
              have hgd2 : h[dr]? = some dt := by
                rw [← List.get?_eq_getElem?]
                exact hgd
              simp [TensorFeeder.satisfiedBy, hgd2, hgs2] at hst
          | some st =>
              simp only [TensorFeeder.satisfiedBy, hgd, hgs, Bool.and_eq_true,
                decide_eq_true_eq] at hst
              obtain ⟨⟨hdd, hdg⟩, hsd⟩ := hst
              have key : f._feed h (.paddedTensor dr sr) =
                  (h, .ok (.paddedTensor dr sr)) := by
                simp [TensorFeeder._feed,
                  torchTo_noop h sr f.device st hgs hsd,
                  requiresGradInPlace_noop h dr f.requires_grad dt hgd hdg,
                  torchTo_noop h dr f.device dt hgd hdd]
              refine ⟨?_, fun h2 y hq => ?_⟩
              · simp [TensorFeeder.feedTwice, key]
              · rw [key] at hq
                injection hq with e1 e2
                injection e2 with e3
                exact ⟨e1.symm, e3.symm⟩
  | packedSequence dr sr =>
      cases hgd : h.get? dr with
      | none =>
          have hgd2 : h[dr]? = (none : Option TensorObj) := by
            rw [← List.get?_eq_getElem?]
            exact hgd
          simp [TensorFeeder.satisfiedBy, hgd2] at hst
      | some dt =>
          cases hgs : h.get? sr with
          | none =>
              have hgs2 : h[sr]? = (none : Option TensorObj) := by
                rw [← List.get?_eq_getElem?]
                exact hgs
              have hgd2 : h[dr]? = some dt := by
                rw [← List.get?_eq_getElem?]
                exact hgd
              simp [TensorFeeder.satisfiedBy, hgd2, hgs2] at hst
          | some st =>
              simp only [TensorFeeder.satisfiedBy, hgd, hgs, Bool.and_eq_true,
                decide_eq_true_eq] at hst
              obtain ⟨⟨hdd, hdg⟩, hsd⟩ := hst
              have key : f._feed h (.packedSequence dr sr) =
                  (h, .ok (.packedSequence dr sr)) := by
                simp [TensorFeeder._feed,
                  torchTo_noop h sr f.device st hgs hsd,
                  requiresGradInPlace_noop h dr f.requires_grad dt hgd hdg,
                  torchTo_noop h dr f.device dt hgd hdd]
              refine ⟨?_, fun h2 y hq => ?_⟩
              · simp [TensorFeeder.feedTwice, key]
              · rw [key] at hq
                injection hq with e1 e2
                injection e2 with e3
                exact ⟨e1.symm, e3.symm⟩

/-- Closed instance of `feed_idempotent` at a concrete feeder, heap and
already-satisfying input. -/
theorem feed_idempotent_witness :
    TensorFeeder.satisfiedBy ⟨"cpu", true⟩
        [⟨"cpu", true, [7]⟩, ⟨"cpu", false, [1]⟩] (.paddedTensor 0 1) = true ∧
    TensorFeeder.feedTwice ⟨"cpu", true⟩
        [⟨"cpu", true, [7]⟩, ⟨"cpu", false, [1]⟩] (.paddedTensor 0 1) =
      TensorFeeder._feed ⟨"cpu", true⟩
        [⟨"cpu", true, [7]⟩, ⟨"cpu", false, [1]⟩] (.paddedTensor 0 1) :=
  ⟨rfl,
    (feed_idempotent ⟨"cpu", true⟩ [⟨"cpu", true, [7]⟩, ⟨"cpu", false, [1]⟩]
        (.paddedTensor 0 1) rfl).1⟩

/-- C10: `_feed` is deterministic — the big-step relation relates a given
configuration, heap and input to exactly one output heap and one result
(value or error). Together with `feedStep_of_feed` this says two invocations
on equal inputs agree. -/
theorem feed_deterministic (f : TensorFeeder) (h : Heap) (x : Value)
    (ha hb : Heap) (ra rb : Except Err Value)
    (da : FeedStep f h x ha ra) (db : FeedStep f h x hb rb) :
    ha = hb ∧ ra = rb := by
  cases da with
  | tensor r =>
      cases db with
      | tensor _ => exact ⟨rfl, rfl⟩
  | other tn =>
      cases db with
      | other _ => exact ⟨rfl, rfl⟩
  | padded dr sr h1a h2a h3a xsa d1a d2a e1 e2 e3 =>
      cases db with
      | padded dr2 sr2 h1b h2b h3b xsb d1b d2b e1b e2b e3b =>
          rw [e1] at e1b
          injection e1b with f1 f2
          subst f1
          subst f2
          rw [e2] at e2b
          injection e2b with f3 f4
          subst f3
          subst f4
          rw [e3] at e3b
          injection e3b with f5 f6
          subst f5
          subst f6
          exact ⟨rfl, rfl⟩
  | packed dr sr h1a h2a h3a xsa d1a d2a e1 e2 e3 =>
      cases db with
      | packed dr2 sr2 h1b h2b h3b xsb d1b d2b e1b e2b e3b =>
          rw [e1] at e1b
          injection e1b with f1 f2
          subst f1
          subst f2
          rw [e2] at e2b
          injection e2b with f3 f4
          subst f3
          subst f4
          rw [e3] at e3b
          injection e3b with f5 f6
          subst f5
          subst f6
          exact ⟨rfl, rfl⟩

/-- Closed instance of `feed_deterministic`: determinism transports the
derivation produced by `feedStep_of_feed` to the explicitly evaluated
output at a concrete feeder, heap and input. -/
theorem feed_deterministic_witness :
    (TensorFeeder._feed ⟨"cuda:0", true⟩
        [⟨"cpu", false, [7, 7]⟩, ⟨"cpu", false, [2]⟩] (.paddedTensor 0 1)).1 =
      [⟨"cpu", true, [7, 7]⟩, ⟨"cpu", false, [2]⟩,
        ⟨"cuda:0", false, [2]⟩, ⟨"cuda:0", true, [7, 7]⟩] ∧
    (TensorFeeder._feed ⟨"cuda:0", true⟩
        [⟨"cpu", false, [7, 7]⟩, ⟨"cpu", false, [2]⟩] (.paddedTensor 0 1)).2 =
      .ok (.paddedTensor 3 2) :=
  feed_deterministic ⟨"cuda:0", true⟩
    [⟨"cpu", false, [7, 7]⟩, ⟨"cpu", false, [2]⟩] (.paddedTensor 0 1)
    _ _ _ _
    (feedStep_of_feed ⟨"cuda:0", true⟩
      [⟨"cpu", false, [7, 7]⟩, ⟨"cpu", false, [2]⟩] (.paddedTensor 0 1))
    (show FeedStep ⟨"cuda:0", true⟩
        [⟨"cpu", false, [7, 7]⟩, ⟨"cpu", false, [2]⟩] (.paddedTensor 0 1)
        [⟨"cpu", true, [7, 7]⟩, ⟨"cpu", false, [2]⟩,
          ⟨"cuda:0", false, [2]⟩, ⟨"cuda:0", true, [7, 7]⟩]
        (.ok (.paddedTensor 3 2)) from
      feedStep_of_feed ⟨"cuda:0", true⟩
        [⟨"cpu", false, [7, 7]⟩, ⟨"cpu", false, [2]⟩] (.paddedTensor 0 1))

end Laia
